import Mathlib

set_option autoImplicit false
set_option maxRecDepth 100000

/-!
# rpc-gateway: shallow embedding and verification

A shallow embedding of the dispatch-and-failover engine and the health
subsystem of the 0xProject/rpc-gateway repository, with theorems settling
the specification claims about them.

Sources embedded below (by Go file):
* `internal/rollingwindow/rollingwindow.go` (`src/unnamed/part_019`): `RollingWindow`
* `internal/proxy/healthchecker.go`: taint state machine (`Taint`, `RemoveTaint`)
* `healthcheck_manager.go`: name-keyed manager operations and
  `GetNextHealthyTargetIndexExcluding`
* `http_failover_proxy.go`: the legacy failover dispatcher (`ServeHTTP`,
  `ModifyResponse`, `ErrorHandler` recursion)
* `internal/proxy/proxy.go`: the linear dispatcher (`ServeHTTP`,
  `HasNodeProviderFailed`, `hasError`)
* `internal/proxy/target.go`: compression negotiation
  (`buildRequestWithContext`, `gzip`, `gunzip`)
* `internal/proxy/healthchecker_utils.go` and `pkg/proxy/healthchecker_utils.go`:
  the gas-left probe payload and `hexToUint`

Go machine integers that matter here (indices, lengths, HTTP status codes,
seconds of back-off) stay far below 2^63, so they are embedded as `Nat`;
durations are embedded in whole seconds.  Fallible Go paths (`panic`,
returned `error`) are embedded as `Option`/`Except`.
-/

/-! ## RollingWindow (`internal/rollingwindow/rollingwindow.go`)

The mutex only serializes the operations (all our traces are already
sequential), so it has no counterpart in the embedding.
-/

structure RollingWindow where
  size : Nat
  window : List Nat
  offset : Nat
deriving Repr, DecidableEq

/-- `NewRollingWindow(size)`: empty ring, zero write cursor. -/
def NewRollingWindow (size : Nat) : RollingWindow :=
  { size := size, window := [], offset := 0 }

/-- `Observe`: append while the ring is not full, else overwrite at the
write cursor and advance it modulo `size`. -/
def RollingWindow.Observe (r : RollingWindow) (value : Nat) : RollingWindow :=
  if r.window.length < r.size then
    { r with window := r.window ++ [value] }
  else
    { r with window := r.window.set r.offset value,
             offset := (r.offset + 1) % r.size }

/-- `Sum`: integer sum of the held observations (the Go loop
`for _, v := range r.window { result += v }`). -/
def RollingWindow.Sum (r : RollingWindow) : Nat :=
  r.window.sum

/-- `Reset`: `r.window = make([]int, 0, r.size)`.  The Go code does NOT
touch `r.offset`; the stale cursor survives a reset. -/
def RollingWindow.Reset (r : RollingWindow) : RollingWindow :=
  { r with window := [] }

/-- `HasEnoughObservations`: the Go code returns
`float64(len(r.window)/r.size) > 0.9` after an explicit empty-window check.
`len/size` is Go integer division, so the converted float is the exact
integer quotient `q`, and `float64(q) > 0.9` holds iff `q ≥ 1`; the
embedding compares the integer quotient directly. -/
def RollingWindow.HasEnoughObservations (r : RollingWindow) : Bool :=
  if r.window.length == 0 then
    false
  else
    decide (1 ≤ r.window.length / r.size)

/-- Feed a list of observations left to right. -/
def RollingWindow.observeAll (r : RollingWindow) (obs : List Nat) : RollingWindow :=
  obs.foldl RollingWindow.Observe r

/-- The last `min (obs.length) n` observations, oldest first (specification
side of claim C7). -/
def lastWindow (n : Nat) (obs : List Nat) : List Nat :=
  obs.drop (obs.length - n)

/-! ## Taint state machine (`internal/proxy/healthchecker.go`)

Per-controller state touched by `Taint`/`RemoveTaint`, in whole seconds.
`lastTaintRemoval = none` models the Go zero `time.Time`, for which
`time.Since(...)` exceeds any back-off window (the gateway does not run
within five minutes of the epoch).  Because every transition runs under
`h.mu`, an interleaving of calls and timer firings is embedded as a
sequence of atomic transitions.
-/

/-- `initialTaintWaitTime = time.Second * 30`. -/
def initialTaintWaitTime : Nat := 30

/-- `maxTaintWaitTime = time.Minute * 10`. -/
def maxTaintWaitTime : Nat := 600

/-- `resetTaintWaitTimeAfterDuration = time.Minute * 5`. -/
def resetTaintWaitTimeAfterDuration : Nat := 300

structure TaintState where
  isTainted : Bool
  lastTaintRemoval : Option Nat
  currentTaintWaitTime : Nat
deriving Repr, DecidableEq

/-- The state `NewHealthchecker` builds: untainted, zero removal time,
`currentTaintWaitTime: initialTaintWaitTime`. -/
def initialTaintState : TaintState :=
  { isTainted := false, lastTaintRemoval := none,
    currentTaintWaitTime := initialTaintWaitTime }

/-- `Taint()` at time `now`: early return if already tainted (no timer is
spawned); otherwise double the wait time, capped at `maxTaintWaitTime`,
when within `resetTaintWaitTimeAfterDuration` of the last removal, else
reset it to `initialTaintWaitTime`.  The second component is the fire time
`now + currentTaintWaitTime` of the spawned auto-clear goroutine
(`<-time.After(h.currentTaintWaitTime); h.RemoveTaint()`), `none` when no
goroutine is spawned. -/
def TaintState.Taint (s : TaintState) (now : Nat) : TaintState × Option Nat :=
  if s.isTainted then
    (s, none)
  else
    let w : Nat :=
      match s.lastTaintRemoval with
      | some r =>
          if now - r ≤ resetTaintWaitTimeAfterDuration then
            min (2 * s.currentTaintWaitTime) maxTaintWaitTime
          else
            initialTaintWaitTime
      | none => initialTaintWaitTime
    ({ isTainted := true, lastTaintRemoval := s.lastTaintRemoval,
       currentTaintWaitTime := w },
     some (now + w))

/-- `RemoveTaint()` at time `now`: unconditionally clear the flag and stamp
the removal time.  There is no episode or epoch check of any kind in the
Go function. -/
def TaintState.RemoveTaint (s : TaintState) (now : Nat) : TaintState :=
  { s with isTainted := false, lastTaintRemoval := some now }

/-- One taint episode with explicit timing `(d, g)`: taint at the current
clock; the untaint — the auto-clear goroutine firing on time or late, or a
manual `RemoveTaint` — happens `d` seconds later; the next taint of the
following episode comes `g` seconds after that untaint. -/
def episodeAt (p : TaintState × Nat) (d g : Nat) : TaintState × Nat :=
  let s := (p.1.Taint p.2).1
  (s.RemoveTaint (p.2 + d), p.2 + d + g)

/-- State and clock after running the episodes `es` (each `(d, g)` a
taint-to-untaint delay and an untaint-to-next-taint gap) on a fresh
controller starting at time `t0`. -/
def episodeRun (t0 : Nat) (es : List (Nat × Nat)) : TaintState × Nat :=
  es.foldl (fun p e => episodeAt p e.1 e.2) (initialTaintState, t0)

/-- The `currentTaintWaitTime` produced by the next taint after the
episodes `es`. -/
def waitAfterTaint (t0 : Nat) (es : List (Nat × Nat)) : Nat :=
  ((episodeRun t0 es).1.Taint (episodeRun t0 es).2).1.currentTaintWaitTime

/-! ## Healthcheck manager (`healthcheck_manager.go`)

The manager state relevant to the name-keyed operations: per target a
healthchecker (its probe result `isHealthy` and its taint state) and a
rolling window, both keyed by the configured name.  Metrics and logging
have no observable effect and are not embedded.
-/

structure HealthcheckerState where
  taint : TaintState
  isHealthy : Bool
deriving Repr, DecidableEq

/-- `RPCHealthchecker.IsHealthy`: tainted always reads unhealthy, else the
last probe result. -/
def HealthcheckerState.IsHealthy (h : HealthcheckerState) : Bool :=
  if h.taint.isTainted then false else h.isHealthy

structure HealthcheckManager where
  healthcheckers : List (String × HealthcheckerState)
  rollingWindows : List (String × RollingWindow)
deriving Repr, DecidableEq

/-- `GetTargetByName`: first healthchecker with the given name; the Go
function logs and returns `nil` when there is none. -/
def HealthcheckManager.GetTargetByName (m : HealthcheckManager) (name : String) :
    Option HealthcheckerState :=
  (m.healthcheckers.find? (fun p => p.1 == name)).map (fun p => p.2)

/-- `IsTargetHealthy`: `false` for an unknown name (the `nil` branch). -/
def HealthcheckManager.IsTargetHealthy (m : HealthcheckManager) (name : String) : Bool :=
  match m.GetTargetByName name with
  | some hc => hc.IsHealthy
  | none => false

/-- Taint the first healthchecker carrying `name` (the Go `Taint` mutates
the pointer `GetTargetByName` returned). -/
def taintNamed (now : Nat) :
    List (String × HealthcheckerState) → String → List (String × HealthcheckerState)
  | [], _ => []
  | p :: rest, name =>
      if p.1 == name then
        (p.1, { p.2 with taint := (p.2.taint.Taint now).1 }) :: rest
      else
        p :: taintNamed now rest name

/-- `TaintTarget`: delegate to the controller when the name resolves, and
do nothing at all when `GetTargetByName` returns `nil`. -/
def HealthcheckManager.TaintTarget (m : HealthcheckManager) (name : String) (now : Nat) :
    HealthcheckManager :=
  match m.GetTargetByName name with
  | some _ => { m with healthcheckers := taintNamed now m.healthcheckers name }
  | none => m

/-- `GetRollingWindowByName`: first window with the given name; the Go
function ends in `panic("unknown rolling window")`, embedded as `Except`. -/
def HealthcheckManager.GetRollingWindowByName (m : HealthcheckManager) (name : String) :
    Except String RollingWindow :=
  match m.rollingWindows.find? (fun p => p.1 == name) with
  | some p => .ok p.2
  | none => .error "unknown rolling window"

/-- Observe `value` in the first window carrying `name`. -/
def observeNamed (value : Nat) :
    List (String × RollingWindow) → String → List (String × RollingWindow)
  | [], _ => []
  | p :: rest, name =>
      if p.1 == name then (p.1, p.2.Observe value) :: rest
      else p :: observeNamed value rest name

/-- `ObserveSuccess`: push a 1; the unknown-name panic propagates. -/
def HealthcheckManager.ObserveSuccess (m : HealthcheckManager) (name : String) :
    Except String HealthcheckManager :=
  match m.GetRollingWindowByName name with
  | .ok _ => .ok { m with rollingWindows := observeNamed 1 m.rollingWindows name }
  | .error e => .error e

/-- `ObserveFailure`: push a 0; the unknown-name panic propagates. -/
def HealthcheckManager.ObserveFailure (m : HealthcheckManager) (name : String) :
    Except String HealthcheckManager :=
  match m.GetRollingWindowByName name with
  | .ok _ => .ok { m with rollingWindows := observeNamed 0 m.rollingWindows name }
  | .error e => .error e

/-- The loop body of `GetNextHealthyTargetIndexExcluding`: scan indices
from `idx` upward over the per-target healthy bits, skip excluded indices,
return the first healthy remainder.  When the loop falls through, the Go
function logs "no more healthy targets" and returns `0`. -/
def getNextHealthyExcludingFrom (excludedIdx : List Nat) :
    Nat → List Bool → Nat
  | _, [] => 0
  | idx, h :: rest =>
      if !(excludedIdx.contains idx) && h then idx
      else getNextHealthyExcludingFrom excludedIdx (idx + 1) rest

/-- `GetNextHealthyTargetIndexExcluding` over the health vector of the
configured targets. -/
def GetNextHealthyTargetIndexExcluding (healthy : List Bool) (excludedIdx : List Nat) : Nat :=
  getNextHealthyExcludingFrom excludedIdx 0 healthy

/-! ## Legacy failover dispatcher (`http_failover_proxy.go`)

The classification closure installed as `proxy.ModifyResponse` and the
`ServeHTTP` / `ErrorHandler` recursion.  A request's traversal is
deterministic given the fixed health vector and a per-target response
status, so the dispatcher is embedded as a function from those to the
selection log (one entry per `GetNextTargetExcluding` pick) and the final
outcome.  Context plumbing (`Reroutes`, `VisitedTargets`, the body buffer)
becomes explicit arguments; per-target retries re-issue against the same
target without a new selection and, with a deterministic upstream status,
fail identically, so they do not appear in the selection log; the
client-cancellation early return is not exercised by any claim settled
here.
-/

/-- The `ModifyResponse` closure's classification: HTTP 429 and every
status `>= 300` return an error (which `ErrorHandler` turns into
retry/reroute); anything below 300 is a success observation. -/
def modifyResponseFails (status : Nat) : Bool :=
  status == 429 || decide (300 ≤ status)

inductive LegacyResult where
  | ok (targetIdx : Nat) (status : Nat)
  | unavailable503
deriving Repr, DecidableEq

structure FailoverConfig where
  allowedNumberOfReroutes : Nat
  healthy : List Bool
  respond : Nat → Nat

/-- One `ServeHTTP` entry per remaining reroute budget.  The Go guard is
`reroutes > allowedNumberOfReroutes`, and each pass through `ErrorHandler`
re-enters `ServeHTTP` with `reroutes + 1` and the picked index appended to
`visitedTargets`; `fuel = allowedNumberOfReroutes + 1 - reroutes` makes the
same count structural.  Returns the selection log and the outcome. -/
def serveHTTPLegacyGo (cfg : FailoverConfig) :
    Nat → List Nat → List Nat × LegacyResult
  | 0, _ => ([], .unavailable503)
  | fuel + 1, visited =>
      let idx := GetNextHealthyTargetIndexExcluding cfg.healthy visited
      let status := cfg.respond idx
      if modifyResponseFails status then
        let rec' := serveHTTPLegacyGo cfg fuel (visited ++ [idx])
        (idx :: rec'.1, rec'.2)
      else
        ([idx], .ok idx status)

/-- A fresh client request: `reroutes = 0`, `visitedTargets = []`. -/
def serveHTTPLegacy (cfg : FailoverConfig) : List Nat × LegacyResult :=
  serveHTTPLegacyGo cfg (cfg.allowedNumberOfReroutes + 1) []

/-! ## Linear dispatcher (`internal/proxy/proxy.go`) -/

/-- `hasError` (first `Proxy` in the file): status 429 or `>= 500`. -/
def hasError (statusCode : Nat) : Bool :=
  statusCode == 429 || decide (500 ≤ statusCode)

/-- `HasNodeProviderFailed` (second `Proxy` in the file): status `>= 500`
or 429. -/
def HasNodeProviderFailed (statusCode : Nat) : Bool :=
  decide (500 ≤ statusCode) || statusCode == 429

structure NodeTarget where
  name : String
  healthy : Bool
  status : Nat
deriving Repr, DecidableEq

inductive ServeResult where
  | written (name : String) (status : Nat)
  | serviceUnavailable503
deriving Repr, DecidableEq

/-- The target loop of the second `ServeHTTP`: skip targets the manager
reports unhealthy, skip failed statuses, write the first success; falling
off the end is `errServiceUnavailable`. -/
def serveTargets : List NodeTarget → ServeResult
  | [] => .serviceUnavailable503
  | t :: rest =>
      if !t.healthy then serveTargets rest
      else if HasNodeProviderFailed t.status then serveTargets rest
      else .written t.name t.status

/-- `ServeHTTP` of the second `Proxy` in `internal/proxy/proxy.go`: a body
read error answers 503 at once (`p.errServiceUnavailable`), otherwise the
buffered body is replayed against each candidate in configured order.
`t.healthy` is the `IsHealthy` view at request entry and `t.status` the
status the `ReponseWriter` records for that target's attempt. -/
def proxyServeHTTP (targets : List NodeTarget) (bodyReadError : Bool) : ServeResult :=
  if bodyReadError then .serviceUnavailable503
  else serveTargets targets

/-! ## Compression negotiation (`internal/proxy/target.go`)

Bodies are byte lists.  Gzip framing is kept abstract — the embedding does
not re-implement DEFLATE — but it distinguishes the three stream shapes the
code can produce, which is exactly what the claims are about:

* `plain b` — the raw bytes `b`, no gzip framing;
* `gzipped b` — a complete gzip stream (header, deflate data, trailer)
  whose decompression yields `b`;
* `unclosedGzip b` — what `io.Copy(gzip.NewWriter(body), r.Body)` leaves
  in `body` when fed `b` and the writer is never `Close`d or `Flush`ed:
  the 10-byte gzip header, with the deflate payload still buffered in the
  writer and no trailer ever written.  Reading such a stream with
  `gzip.NewReader` + `io.Copy` fails with unexpected EOF, so its
  decompression is `none`.
-/

inductive BodyStream where
  | plain (bytes : List Nat)
  | gzipped (payload : List Nat)
  | unclosedGzip (payload : List Nat)
deriving Repr, DecidableEq

/-- The carried bytes a later `io.Copy` out of the request body reads: the
payload for `plain`, the (abstract) wire bytes otherwise. -/
def BodyStream.raw : BodyStream → List Nat
  | .plain b => b
  | .gzipped b => b
  | .unclosedGzip b => b

/-- `gunzip` body handling: `gzip.NewReader` + `io.Copy` succeeds exactly
on a complete gzip stream.  A header-only stream dies with unexpected EOF
and raw bytes die at the magic-number check. -/
def gunzipStream : BodyStream → Option (List Nat)
  | .gzipped b => some b
  | .plain _ => none
  | .unclosedGzip _ => none

/-- The body produced by the `gzip` method: the new buffer is filled by
`io.Copy(gzip.NewWriter(body), r.Body)` with no `Close`, i.e. an unclosed
gzip stream over the request's bytes. -/
def gzipStream (s : BodyStream) : BodyStream :=
  .unclosedGzip s.raw

structure ModelRequest where
  body : BodyStream
  contentEncodingGzip : Bool
deriving Repr, DecidableEq

/-- `buildRequestWithContext`: after `initializeRequestWithContext` copies
the body and the `Content-Encoding: gzip` marker, the four negotiation
cases of the Go code.  `compression` is
`h.Config.Connection.HTTP.Compression`.  Errors are the wrapped Go errors
(`request gunzip failed`). -/
def buildRequestWithContext (compression : Bool) (r : ModelRequest) :
    Except String ModelRequest :=
  if r.contentEncodingGzip then
    if compression then
      .ok r
    else
      match gunzipStream r.body with
      | some b => .ok { body := .plain b, contentEncodingGzip := false }
      | none => .error "request gunzip failed"
  else
    if compression then
      .ok { body := gzipStream r.body, contentEncodingGzip := true }
    else
      .ok r

/-! ## Gas-left probe (`internal/proxy/healthchecker_utils.go`,
`pkg/proxy/healthchecker_utils.go`) -/

/-- `userAgent = "rpc-gateway-health-check"`. -/
def userAgent : String := "rpc-gateway-health-check"

/-- The exact Go string literal `gasLeftCallRaw` of
`internal/proxy/healthchecker_utils.go` (leading newline and indentation
included). -/
def gasLeftCallRawInternal : String :=
"
\x7b
    \"method\": \"eth_call\",
    \"params\": [
        \x7b
            \"from\": \"0xab5801a7d398351b8be11c439e05c5b3259aec9b\",
            \"to\": \"0x5555555555555555555555555555555555555555\",
            \"value\": \"0x0\",
            \"data\": \"0x51be4eaa\",
            \"gas\": \"0x3B9ACA00\"
        \x7d,
        \"latest\",
        \x7b
            \"0x5555555555555555555555555555555555555555\": \x7b
                \"code\": \"0x6080604052348015600f57600080fd5b506004361060285760003560e01c806351be4eaa14602d575b600080fd5b60336045565b60408051918252519081900360200190f35b60005a90509056fea2646970667358221220b8fc97f4ae43b2849771c773ac6e7040e00be6910c96cabe366b34c3f294d27764736f6c634300060c0033\"
            \x7d
        \x7d
    ],
    \"id\": 1,
    \"jsonrpc\": \"2.0\"
\x7d
"

/-- The exact Go string literal `gasLeftCallRaw` of
`pkg/proxy/healthchecker_utils.go`. -/
def gasLeftCallRawPkg : String :=
"
\x7b
    \"method\": \"eth_call\",
    \"params\": [
        \x7b
            \"from\": \"0xab5801a7d398351b8be11c439e05c5b3259aec9b\",
            \"to\": \"0x5555555555555555555555555555555555555555\",
            \"value\": \"0x0\",
            \"data\": \"0x51be4eaa\",
            \"gas\": \"0x5F5E100\"
        \x7d,
        \"latest\",
        \x7b
            \"0x5555555555555555555555555555555555555555\": \x7b
                \"code\": \"0x6080604052348015600f57600080fd5b506004361060285760003560e01c806351be4eaa14602d575b600080fd5b60336045565b60408051918252519081900360200190f35b60005a90509056fea2646970667358221220b8fc97f4ae43b2849771c773ac6e7040e00be6910c96cabe366b34c3f294d27764736f6c634300060c0033\"
            \x7d
        \x7d
    ],
    \"id\": 1,
    \"jsonrpc\": \"2.0\"
\x7d
"

/-- Does `needle` occur as a contiguous run in `hay`?  Used to compare the
embedded payload literals against the spec's payload fields. -/
def containsRun (hay needle : List Char) : Bool :=
  match hay with
  | [] => needle.isEmpty
  | _ :: rest => needle.isPrefixOf hay || containsRun rest needle

/-- `strings.ReplaceAll(hexString, "0x", "")`: delete every occurrence of
`0x`, scanning left to right without overlap. -/
def strip0x : List Char → List Char
  | '0' :: 'x' :: rest => strip0x rest
  | c :: rest => c :: strip0x rest
  | [] => []

/-- One hexadecimal digit, as `strconv.ParseUint` base 16 reads it. -/
def hexDigitVal : Char → Option Nat
  | c =>
      if '0' ≤ c ∧ c ≤ '9' then some (c.toNat - '0'.toNat)
      else if 'a' ≤ c ∧ c ≤ 'f' then some (c.toNat - 'a'.toNat + 10)
      else if 'A' ≤ c ∧ c ≤ 'F' then some (c.toNat - 'A'.toNat + 10)
      else none

/-- Accumulate base-16 digits. -/
def parseHexAux : Nat → List Char → Option Nat
  | acc, [] => some acc
  | acc, c :: rest =>
      match hexDigitVal c with
      | some d => parseHexAux (16 * acc + d) rest
      | none => none

/-- `strconv.ParseUint(s, 16, 64)`: explicit base, so no `0x` prefix is
recognized; the empty string, any non-hex rune, and any value outside
uint64 range are errors. -/
def parseUint16_64 (cs : List Char) : Option Nat :=
  if cs.isEmpty then none
  else
    match parseHexAux 0 cs with
    | some v => if v < 2 ^ 64 then some v else none
    | none => none

/-- `hexToUint`: strip every `"0x"` then parse base 16.  The probe's
result-field check is exactly `hexToUint(result.Result)` succeeding. -/
def hexToUint (hexString : String) : Option Nat :=
  parseUint16_64 (strip0x hexString.data)

/-! ## Specification-side definitions used by the theorems -/

/-- Ring-buffer abstraction relation: before the ring is full the window is
the whole history with the cursor at 0; once full, the window is a rotation
`b ++ a` of the most recent `n` observations `a ++ b`, rotated at the write
cursor `b.length`. -/
def WindowInv (n : Nat) (obs : List Nat) (r : RollingWindow) : Prop :=
  r.size = n ∧
  ((obs.length < n ∧ r.window = obs ∧ r.offset = 0) ∨
   (n ≤ obs.length ∧ ∃ a b : List Nat, a ≠ [] ∧ r.window = b ++ a ∧
      r.offset = b.length ∧ a ++ b = lastWindow n obs))

/-! ## Theorems -/

/-- Writing at the rotation point replaces the oldest element. -/
theorem set_append_cons (b : List Nat) (x v : Nat) (t : List Nat) :
    (b ++ x :: t).set b.length v = b ++ v :: t := by
  induction b with
  | nil => rfl
  | cons y ys ih => simp [List.set, ih]

/-- Dropping one more element of the history takes the tail of the last
window (valid once the history holds at least `n ≥ 1` elements). -/
theorem lastWindow_append (n : Nat) (hn : 0 < n) (obs : List Nat)
    (hge : n ≤ obs.length) (v : Nat) :
    lastWindow n (obs ++ [v]) = (lastWindow n obs).tail ++ [v] := by
  unfold lastWindow
  rw [List.tail_drop, List.drop_append_eq_append_drop]
  have h1 : (obs ++ [v]).length - n = obs.length - n + 1 := by simp; omega
  rw [h1]
  have h2 : obs.length - n + 1 - obs.length = 0 := by omega
  rw [h2]
  simp

/-- The last window has length `n` once the history is long enough. -/
theorem lastWindow_length (n : Nat) (obs : List Nat) (hge : n ≤ obs.length) :
    (lastWindow n obs).length = n := by
  unfold lastWindow
  rw [List.length_drop]
  omega

/-- `Observe` preserves the ring-buffer abstraction. -/
theorem windowInv_observe {n : Nat} {obs : List Nat} {r : RollingWindow}
    (hn : 0 < n) (h : WindowInv n obs r) (v : Nat) :
    WindowInv n (obs ++ [v]) (r.Observe v) := by
  obtain ⟨hsize, hcase⟩ := h
  rcases hcase with ⟨hlt, hw, ho⟩ | ⟨hge, a, b, hane, hw, ho, hlast⟩
  · -- growing phase: append
    have hcond : r.window.length < r.size := by rw [hw, hsize]; exact hlt
    unfold RollingWindow.Observe
    rw [if_pos hcond]
    refine ⟨hsize, ?_⟩
    by_cases hfull : obs.length + 1 < n
    · left
      exact ⟨by simpa using hfull, by rw [hw], ho⟩
    · right
      have hlen : obs.length + 1 = n := by omega
      refine ⟨by simpa using hlen.ge, obs ++ [v], [], by simp, by simp [hw], ?_, ?_⟩
      · simpa using ho
      · unfold lastWindow
        have h0 : (obs ++ [v]).length - n = 0 := by simp; omega
        rw [h0]
        simp
  · -- full phase: overwrite at the cursor
    have hwl : (lastWindow n obs).length = n := lastWindow_length n obs hge
    have hablen : a.length + b.length = n := by
      have := congrArg List.length hlast
      simpa using this.trans hwl
    have hcond : ¬ r.window.length < r.size := by
      rw [hw, hsize]
      simp
      omega
    unfold RollingWindow.Observe
    rw [if_neg hcond]
    obtain ⟨x, atail, rfl⟩ : ∃ x t, a = x :: t := by
      cases a with
      | nil => exact absurd rfl hane
      | cons x t => exact ⟨x, t, rfl⟩
    have hset : r.window.set r.offset v = b ++ v :: atail := by
      rw [hw, ho, set_append_cons]
    have hlast' : lastWindow n (obs ++ [v]) = atail ++ b ++ [v] := by
      rw [lastWindow_append n hn obs hge v, ← hlast]
      simp
    refine ⟨hsize, Or.inr ⟨by simp; omega, ?_⟩⟩
    cases atail with
    | nil =>
      refine ⟨b ++ [v], [], by simp, by simp [hset], ?_, ?_⟩
      · have hbl : b.length + 1 = n := by simp at hablen; omega
        rw [ho, hsize]
        simp [hbl]
      · rw [hlast']
        simp
    | cons y ys =>
      refine ⟨y :: ys, b ++ [v], by simp, by simp [hset], ?_, ?_⟩
      · have hblt : b.length + 1 < n := by simp at hablen; omega
        rw [ho, hsize, Nat.mod_eq_of_lt hblt]
        simp
      · rw [hlast']
        simp

/-- The abstraction holds along every run that starts from a freshly
constructed window. -/
theorem windowInv_observeAll (n : Nat) (hn : 0 < n) (obs : List Nat) :
    WindowInv n obs ((NewRollingWindow n).observeAll obs) := by
  induction obs using List.reverseRecOn with
  | nil =>
    exact ⟨rfl, Or.inl ⟨hn, rfl, rfl⟩⟩
  | append_singleton l v ih =>
    have : (NewRollingWindow n).observeAll (l ++ [v]) =
        ((NewRollingWindow n).observeAll l).Observe v := by
      simp [RollingWindow.observeAll]
    rw [this]
    exact windowInv_observe hn ih v

/-- Claim C7 (amended): starting from a freshly constructed window of
capacity `n > 0`, after any sequence of observations the held length is
`min k n` (`k` the number of observations) and `Sum` is the sum of the last
`min k n` observed values.  (The claim's reset case fails: `Reset` keeps
the stale write cursor, see the counterexample.) -/
theorem c7_fresh_window_sum (n : Nat) (obs : List Nat) (hn : 0 < n) :
    ((NewRollingWindow n).observeAll obs).window.length = min obs.length n ∧
    ((NewRollingWindow n).observeAll obs).Sum = (lastWindow n obs).sum := by
  obtain ⟨hsize, hcase⟩ := windowInv_observeAll n hn obs
  rcases hcase with ⟨hlt, hw, _⟩ | ⟨hge, a, b, _, hw, _, hlast⟩
  · have hdrop : obs.length - n = 0 := by omega
    constructor
    · rw [hw]
      omega
    · rw [RollingWindow.Sum, hw]
      unfold lastWindow
      rw [hdrop]
      simp
  · have hwl : (lastWindow n obs).length = n := lastWindow_length n obs hge
    have hablen : a.length + b.length = n := by
      have := congrArg List.length hlast
      simpa using this.trans hwl
    constructor
    · rw [hw]
      simp
      omega
    · rw [RollingWindow.Sum, hw, ← hlast]
      simp
      omega

/-- Claim C7 witness: a fresh window of capacity 3 fed 5 observations holds
3 values summing to the last three observations. -/
theorem c7_fresh_window_sum_witness :
    ((NewRollingWindow 3).observeAll [1, 1, 0, 0, 1]).window.length = min 5 3 ∧
    ((NewRollingWindow 3).observeAll [1, 1, 0, 0, 1]).Sum =
      (lastWindow 3 [1, 1, 0, 0, 1]).sum :=
  c7_fresh_window_sum 3 [1, 1, 0, 0, 1] (by decide)

/-- Claim C7 counterexample: `Reset` keeps the stale write cursor, so on a
reset window (capacity 2, cursor left at 1 by three earlier observations)
the next overwrite replaces the newest entry instead of the oldest: after
observations `[1, 0, 0]` the window holds `[1, 0]` with `Sum = 1`, while
the last two observed values sum to 0. -/
theorem c7_counterexample_reset_cursor :
    ((((NewRollingWindow 2).observeAll [1, 1, 1]).Reset).observeAll [1, 0, 0]).window.length =
      min 3 2 ∧
    ((((NewRollingWindow 2).observeAll [1, 1, 1]).Reset).observeAll [1, 0, 0]).Sum ≠
      (lastWindow 2 [1, 0, 0]).sum := by
  decide

/-- Claim C8: on a window of capacity `n > 0` holding `len ≤ n`
observations, `HasEnoughObservations` is true exactly when the window is
full — the Go comparison `float64(len/size) > 0.9` divides integers first —
and it is false on an empty window. -/
theorem c8_has_enough_iff_full (r : RollingWindow) (hn : 0 < r.size)
    (hle : r.window.length ≤ r.size) :
    (r.HasEnoughObservations = true ↔ r.window.length = r.size) ∧
    (r.window = [] → r.HasEnoughObservations = false) := by
  constructor
  · unfold RollingWindow.HasEnoughObservations
    by_cases h0 : r.window.length = 0
    · rw [if_pos (by simpa using h0)]
      constructor
      · intro hfalse
        exact absurd hfalse (by simp)
      · intro heq
        omega
    · rw [if_neg (by simpa using h0)]
      rw [decide_eq_true_iff]
      rw [Nat.one_le_div_iff hn]
      omega
  · intro hempty
    unfold RollingWindow.HasEnoughObservations
    rw [if_pos (by simp [hempty])]

/-- Claim C8 witness: capacity 4; full after four observations, not enough
after three. -/
theorem c8_has_enough_iff_full_witness :
    (((NewRollingWindow 4).observeAll [1, 0, 1]).HasEnoughObservations = true ↔
      ((NewRollingWindow 4).observeAll [1, 0, 1]).window.length =
        ((NewRollingWindow 4).observeAll [1, 0, 1]).size) ∧
    (((NewRollingWindow 4).observeAll [1, 0, 1]).window = [] →
      ((NewRollingWindow 4).observeAll [1, 0, 1]).HasEnoughObservations = false) :=
  c8_has_enough_iff_full ((NewRollingWindow 4).observeAll [1, 0, 1]) (by decide) (by decide)

/-- One doubling-with-cap step advances the closed form of the back-off. -/
theorem min_double_step (k : Nat) :
    min (2 * min (initialTaintWaitTime * 2 ^ k) maxTaintWaitTime) maxTaintWaitTime =
      min (initialTaintWaitTime * 2 ^ (k + 1)) maxTaintWaitTime := by
  have hpow : initialTaintWaitTime * 2 ^ (k + 1) = 2 * (initialTaintWaitTime * 2 ^ k) := by
    ring
  rw [hpow]
  rcases Nat.le_total (initialTaintWaitTime * 2 ^ k) maxTaintWaitTime with h | h
  · rw [Nat.min_eq_left h]
  · rw [Nat.min_eq_right h]
    unfold maxTaintWaitTime at *
    omega

/-- Re-tainting exactly when the auto-clear fires escalates the wait time
by the doubled-and-capped rule (the elapsed time since the removal is 0,
inside the reset window). -/
theorem taint_within_window_after_remove (S : TaintState) (u g : Nat)
    (hg : g ≤ resetTaintWaitTimeAfterDuration) :
    ((S.RemoveTaint u).Taint (u + g)).1.currentTaintWaitTime =
      min (2 * S.currentTaintWaitTime) maxTaintWaitTime := by
  unfold TaintState.RemoveTaint TaintState.Taint
  simp only [Nat.add_sub_cancel_left]
  rw [if_neg (by simp), if_pos hg]

/-- Along any episode trace whose untaint-to-taint gaps stay within the
reset window, the controller is untainted between episodes, the removal
stamp lags the clock by at most the window, and the wait time produced by
the next taint follows the doubled-and-capped closed form. -/
theorem episodeRun_spec (t0 : Nat) : ∀ es : List (Nat × Nat),
    (∀ e ∈ es, e.2 ≤ resetTaintWaitTimeAfterDuration) →
    (episodeRun t0 es).1.isTainted = false ∧
    (es = [] → (episodeRun t0 es).1.lastTaintRemoval = none) ∧
    (es ≠ [] → ∃ u g : Nat, (episodeRun t0 es).1.lastTaintRemoval = some u ∧
        (episodeRun t0 es).2 = u + g ∧ g ≤ resetTaintWaitTimeAfterDuration) ∧
    waitAfterTaint t0 es = min (initialTaintWaitTime * 2 ^ es.length) maxTaintWaitTime := by
  intro es
  induction es using List.reverseRecOn with
  | nil =>
    intro _
    refine ⟨rfl, fun _ => rfl, fun hne => absurd rfl hne, ?_⟩
    simp [waitAfterTaint, episodeRun, initialTaintState, TaintState.Taint,
      initialTaintWaitTime, maxTaintWaitTime]
  | append_singleton es e ih =>
    intro h
    obtain ⟨ht, _, _, hw⟩ := ih (fun x hx => h x (List.mem_append_left [e] hx))
    have hg : e.2 ≤ resetTaintWaitTimeAfterDuration :=
      h e (List.mem_append_right es (List.mem_singleton_self e))
    have hstep : episodeRun t0 (es ++ [e]) =
        (((episodeRun t0 es).1.Taint (episodeRun t0 es).2).1.RemoveTaint
            ((episodeRun t0 es).2 + e.1),
          (episodeRun t0 es).2 + e.1 + e.2) := by
      simp [episodeRun, List.foldl_append, episodeAt]
    refine ⟨?_, ?_, ?_, ?_⟩
    · rw [hstep]
      rfl
    · intro hnil
      exact absurd hnil (by simp)
    · intro _
      refine ⟨(episodeRun t0 es).2 + e.1, e.2, ?_, ?_, hg⟩
      · rw [hstep]
        rfl
      · rw [hstep]
    · have hrem := taint_within_window_after_remove
        (((episodeRun t0 es).1.Taint (episodeRun t0 es).2).1)
        ((episodeRun t0 es).2 + e.1) e.2 hg
      have hw' : ((episodeRun t0 es).1.Taint (episodeRun t0 es).2).1.currentTaintWaitTime =
          min (initialTaintWaitTime * 2 ^ es.length) maxTaintWaitTime := hw
      unfold waitAfterTaint
      rw [hstep]
      dsimp only
      rw [hrem, hw']
      have hlen : (es ++ [e]).length = es.length + 1 := by simp
      rw [hlen]
      exact min_double_step es.length

/-- Claim C6: for every sequence of taint episodes on one controller in
which each taint on the untainted controller occurs within the reset
window (at most 300 s) of the prior untaint — whatever the individual
gaps and however late each untaint runs — the successive wait times are
`min (30 · 2^k) 600` s, concretely 30, 60, 120, 240, 480, 600, 600; a
taint later than the reset window after the last removal starts again at
30 s; and `Taint` on an already-tainted controller changes nothing and
spawns no timer. -/
theorem c6_backoff_escalation :
    (∀ (t0 : Nat) (es : List (Nat × Nat)),
      (∀ e ∈ es, e.2 ≤ resetTaintWaitTimeAfterDuration) →
      waitAfterTaint t0 es = min (initialTaintWaitTime * 2 ^ es.length) maxTaintWaitTime) ∧
    (List.range 7).map (fun k => waitAfterTaint 5 (List.replicate k (7, 299))) =
      [30, 60, 120, 240, 480, 600, 600] ∧
    (∀ (s : TaintState) (now : Nat), s.isTainted = true → s.Taint now = (s, none)) ∧
    (∀ (s : TaintState) (now r : Nat), s.isTainted = false →
      s.lastTaintRemoval = some r → resetTaintWaitTimeAfterDuration < now - r →
      (s.Taint now).1.currentTaintWaitTime = initialTaintWaitTime) := by
  refine ⟨fun t0 es h => (episodeRun_spec t0 es h).2.2.2, by decide, ?_, ?_⟩
  · intro s now h
    unfold TaintState.Taint
    rw [if_pos h]
  · intro s now r hflag hlast hgap
    unfold TaintState.Taint
    rw [if_neg (by simp [hflag])]
    simp only [hlast]
    rw [if_neg (by omega)]

/-- Claim C6 witness: three episodes with assorted delays and in-window
gaps (100 s, 300 s, 0 s) escalate the fourth taint to 240 s, a taint on a
tainted controller is the identity, and a taint 301 s after the last
removal restarts at 30 s. -/
theorem c6_backoff_escalation_witness :
    waitAfterTaint 0 [(0, 100), (45, 300), (12, 0)] =
      min (initialTaintWaitTime * 2 ^ 3) maxTaintWaitTime ∧
    TaintState.Taint ⟨true, none, 30⟩ 7 = (⟨true, none, 30⟩, none) ∧
    (TaintState.Taint ⟨false, some 0, 480⟩ 301).1.currentTaintWaitTime =
      initialTaintWaitTime :=
  ⟨c6_backoff_escalation.1 0 [(0, 100), (45, 300), (12, 0)] (by decide),
   c6_backoff_escalation.2.2.1 ⟨true, none, 30⟩ 7 rfl,
   c6_backoff_escalation.2.2.2 ⟨false, some 0, 480⟩ 301 0 rfl rfl (by decide)⟩

/-- Claim C5 counterexample: taint at t=0 schedules an auto-clear at t=30;
a manual `RemoveTaint` at t=5 ends the episode; a fresh taint at t=10
(its own clear due at t=70) is then wiped out when the stale episode-one
timer fires at t=30 — `RemoveTaint` carries no episode information.  A
further clear firing at t=31 also changes the state again (it restamps
`lastTaintRemoval`). -/
theorem c5_counterexample_stale_timer :
    (initialTaintState.Taint 0).2 = some 30 ∧
    ((((initialTaintState.Taint 0).1.RemoveTaint 5).Taint 10).2 = some 70) ∧
    ((((initialTaintState.Taint 0).1.RemoveTaint 5).Taint 10).1.isTainted = true) ∧
    (((((initialTaintState.Taint 0).1.RemoveTaint 5).Taint 10).1.RemoveTaint 30).isTainted
      = false) ∧
    ((((((initialTaintState.Taint 0).1.RemoveTaint 5).Taint 10).1.RemoveTaint 30).RemoveTaint 31)
      ≠ ((((initialTaintState.Taint 0).1.RemoveTaint 5).Taint 10).1.RemoveTaint 30)) := by
  decide

/-- Claim C5 (amended): the auto-clear callback `RemoveTaint` is
unconditional — it clears whatever taint is currently set, even one from a
later episode, and a second firing keeps `isTainted` at false but restamps
`lastTaintRemoval`, so firing twice is not the identity on the state. -/
theorem c5_remove_taint_unconditional (s : TaintState) (now u u' : Nat) (h : u ≠ u') :
    ((s.Taint now).1.RemoveTaint u).isTainted = false ∧
    ((s.RemoveTaint u).RemoveTaint u').isTainted = (s.RemoveTaint u).isTainted ∧
    (s.RemoveTaint u).RemoveTaint u' ≠ s.RemoveTaint u := by
  refine ⟨rfl, rfl, ?_⟩
  intro hc
  have := congrArg TaintState.lastTaintRemoval hc
  simp [TaintState.RemoveTaint] at this
  exact h this.symm

/-- Claim C5 amended-theorem witness at a concrete state and times. -/
theorem c5_remove_taint_unconditional_witness :
    ((initialTaintState.Taint 0).1.RemoveTaint 3).isTainted = false ∧
    ((initialTaintState.RemoveTaint 3).RemoveTaint 4).isTainted =
      (initialTaintState.RemoveTaint 3).isTainted ∧
    (initialTaintState.RemoveTaint 3).RemoveTaint 4 ≠ initialTaintState.RemoveTaint 3 :=
  c5_remove_taint_unconditional initialTaintState 0 3 4 (by decide)

/-- Claim C1 at its failing input: two targets, index 0 healthy but
answering HTTP 500, index 1 unhealthy, no per-target retries,
`allowedNumberOfReroutes = 1`.  `GetNextHealthyTargetIndexExcluding [0]`
falls back to index 0 although 0 is already visited, so the selection log
is `[0, 0]`: the same target receives the same client request twice before
the 503, contradicting the no-repeat invariant. -/
theorem c1_visited_exclusion_violated :
    (serveHTTPLegacy
        { allowedNumberOfReroutes := 1, healthy := [true, false],
          respond := fun _ => 500 }).1 = [0, 0] ∧
    ¬ (serveHTTPLegacy
        { allowedNumberOfReroutes := 1, healthy := [true, false],
          respond := fun _ => 500 }).1.Nodup ∧
    (serveHTTPLegacy
        { allowedNumberOfReroutes := 1, healthy := [true, false],
          respond := fun _ => 500 }).2 = .unavailable503 ∧
    GetNextHealthyTargetIndexExcluding [true, false] [0] = 0 := by
  decide

/-- If every target that the health manager reports healthy yields a
failing status, the linear dispatcher's candidate loop falls through. -/
theorem serveTargets_exhausted (targets : List NodeTarget)
    (h : ∀ t ∈ targets, t.healthy = true → HasNodeProviderFailed t.status = true) :
    serveTargets targets = .serviceUnavailable503 := by
  induction targets with
  | nil => rfl
  | cons t rest ih =>
    have hrest : ∀ u ∈ rest, u.healthy = true → HasNodeProviderFailed u.status = true :=
      fun u hu => h u (List.mem_cons_of_mem t hu)
    show (if !t.healthy then serveTargets rest
          else if HasNodeProviderFailed t.status then serveTargets rest
          else .written t.name t.status) = .serviceUnavailable503
    cases hh : t.healthy with
    | false =>
      simpa using ih hrest
    | true =>
      have hf := h t (List.mem_cons_self t rest) hh
      simp only [hf, Bool.not_true, Bool.false_eq_true, if_false, if_true]
      exact ih hrest

/-- Claim C2: when the candidate traversal of the dispatcher in
`internal/proxy/proxy.go` ends without a successful upstream response —
every target the manager reports healthy yields a 5xx/429 status, and in
particular when no target is healthy at request entry — the handler
answers 503 Service Unavailable; a body read error does too. -/
theorem c2_exhaustion_yields_503 (targets : List NodeTarget) (bodyReadError : Bool)
    (h : ∀ t ∈ targets, t.healthy = true → HasNodeProviderFailed t.status = true) :
    proxyServeHTTP targets bodyReadError = .serviceUnavailable503 := by
  unfold proxyServeHTTP
  cases bodyReadError with
  | true => rw [if_pos rfl]
  | false =>
    rw [if_neg (by simp)]
    exact serveTargets_exhausted targets h

/-- Claim C2 witness: one unhealthy target and one healthy target stuck on
HTTP 500 produce a 503. -/
theorem c2_exhaustion_yields_503_witness :
    proxyServeHTTP [⟨"primary", false, 200⟩, ⟨"backup", true, 500⟩] false =
      .serviceUnavailable503 :=
  c2_exhaustion_yields_503 [⟨"primary", false, 200⟩, ⟨"backup", true, 500⟩] false
    (by decide)

/-- Claim C3 counterexample: HTTP 404 is neither 5xx nor 429, yet the
legacy `ModifyResponse` classifies it as a failure, and a single healthy
target answering 404 is not passed through verbatim — the legacy dispatcher
burns its reroutes on it and answers 503. -/
theorem c3_counterexample_status_404 :
    modifyResponseFails 404 = true ∧
    (404 : Nat) ≠ 429 ∧
    ¬ (500 ≤ (404 : Nat)) ∧
    (serveHTTPLegacy
        { allowedNumberOfReroutes := 1, healthy := [true],
          respond := fun _ => 404 }).2 = .unavailable503 := by
  decide

/-- Claim C3 (amended): the two dispatchers disagree.  The linear
dispatcher's `hasError`/`HasNodeProviderFailed` classify a response as a
failure exactly when its status is 429 or at least 500 and pass everything
else through (e.g. a 404 is written back to the client), while the legacy
`ModifyResponse` returns an error — triggering retry/failover — exactly
when the status is 429 or at least 300, so 3xx/4xx application-level
errors are not passed through there. -/
theorem c3_failure_classification (s : Nat) :
    (hasError s = true ↔ s = 429 ∨ 500 ≤ s) ∧
    (HasNodeProviderFailed s = true ↔ 500 ≤ s ∨ s = 429) ∧
    (modifyResponseFails s = true ↔ s = 429 ∨ 300 ≤ s) ∧
    proxyServeHTTP [⟨"A", true, 404⟩] false = .written "A" 404 := by
  refine ⟨?_, ?_, ?_, by decide⟩ <;>
    simp [hasError, HasNodeProviderFailed, modifyResponseFails]

/-- Claim C4 at its failing input class: a plain client body forwarded to a
compression-supporting target.  `buildRequestWithContext` does set
`Content-Encoding: gzip`, but the body it installs is the output of an
unclosed `gzip.Writer` — the bare header with the deflate data never
flushed — so decompressing what the upstream receives fails instead of
returning the original bytes. -/
theorem c4_unclosed_gzip_writer (b : List Nat) :
    buildRequestWithContext true { body := .plain b, contentEncodingGzip := false } =
      .ok { body := .unclosedGzip b, contentEncodingGzip := true } ∧
    gunzipStream (.unclosedGzip b) = none ∧
    gunzipStream (.unclosedGzip b) ≠ some b := by
  exact ⟨rfl, rfl, by simp [gunzipStream]⟩

/-- The other three negotiation cases do preserve the body: gzip in, gzip
target keeps the stream; gzip in, plain target decompresses it and strips
the header; plain in, plain target forwards untouched. -/
theorem buildRequest_other_cases (b : List Nat) :
    buildRequestWithContext true { body := .gzipped b, contentEncodingGzip := true } =
      .ok { body := .gzipped b, contentEncodingGzip := true } ∧
    buildRequestWithContext false { body := .gzipped b, contentEncodingGzip := true } =
      .ok { body := .plain b, contentEncodingGzip := false } ∧
    buildRequestWithContext false { body := .plain b, contentEncodingGzip := false } =
      .ok { body := .plain b, contentEncodingGzip := false } :=
  ⟨rfl, rfl, rfl⟩

/-- Claim C9 counterexample: the probe in
`internal/proxy/healthchecker_utils.go` does not post the §6 payload —
its `gas` field is `0x3B9ACA00`, and the spec's `0x5F5E100` occurs nowhere
in the posted bytes; moreover `hexToUint` accepts the result `"1234"`
although it carries no `0x` prefix, so a probe can succeed on a
non-`0x`-prefixed result. -/
theorem c9_counterexample_gas_value :
    containsRun gasLeftCallRawInternal.data "0x5F5E100".data = false ∧
    containsRun gasLeftCallRawInternal.data "0x3B9ACA00".data = true ∧
    hexToUint "1234" = some 4660 := by
  decide

/-- Claim C9 (amended): the pkg probe payload carries gas `0x5F5E100` and
the internal probe payload gas `0x3B9ACA00`; the probe's user agent is
`rpc-gateway-health-check`; and the result check is `hexToUint`, which
deletes every `"0x"` substring and then parses base 16 into a uint64 — so
`0x`-prefixed and unprefixed hex integers are both accepted, while the
empty string, a bare `0x` and non-hex text are probe failures. -/
theorem c9_probe_payload_and_result :
    containsRun gasLeftCallRawPkg.data "0x5F5E100".data = true ∧
    containsRun gasLeftCallRawInternal.data "0x3B9ACA00".data = true ∧
    userAgent = "rpc-gateway-health-check" ∧
    hexToUint "0x10" = some 16 ∧
    hexToUint "1234" = some 4660 ∧
    hexToUint "0xAB" = some 171 ∧
    hexToUint "0x0x12" = some 18 ∧
    hexToUint "" = none ∧
    hexToUint "0x" = none ∧
    hexToUint "zz" = none := by
  decide

/-- If every entry of an association list carries a key other than `name`,
the linear search comes up empty. -/
theorem find_none_of_all_ne {α : Type} (l : List (String × α)) (name : String)
    (h : ∀ p ∈ l, p.1 ≠ name) :
    l.find? (fun p => p.1 == name) = none := by
  rw [List.find?_eq_none]
  intro p hp
  simpa using h p hp

/-- Claim C10: for a name matching no configured target the manager's
name-keyed operations are inconsistent: `IsTargetHealthy` answers `false`
and `TaintTarget` leaves the manager untouched, but `ObserveSuccess` and
`ObserveFailure` hit the `panic("unknown rolling window")` in
`GetRollingWindowByName` instead of degrading the same way. -/
theorem c10_unknown_name_inconsistency (m : HealthcheckManager) (name : String)
    (h1 : ∀ p ∈ m.healthcheckers, p.1 ≠ name)
    (h2 : ∀ p ∈ m.rollingWindows, p.1 ≠ name) :
    m.IsTargetHealthy name = false ∧
    (∀ now : Nat, m.TaintTarget name now = m) ∧
    m.ObserveSuccess name = .error "unknown rolling window" ∧
    m.ObserveFailure name = .error "unknown rolling window" := by
  have hf1 : m.healthcheckers.find? (fun p => p.1 == name) = none :=
    find_none_of_all_ne m.healthcheckers name h1
  have hf2 : m.rollingWindows.find? (fun p => p.1 == name) = none :=
    find_none_of_all_ne m.rollingWindows name h2
  have hget : m.GetTargetByName name = none := by
    rw [HealthcheckManager.GetTargetByName, hf1]
    rfl
  have hwin : m.GetRollingWindowByName name = .error "unknown rolling window" := by
    rw [HealthcheckManager.GetRollingWindowByName, hf2]
  refine ⟨?_, ?_, ?_, ?_⟩
  · rw [HealthcheckManager.IsTargetHealthy, hget]
  · intro now
    rw [HealthcheckManager.TaintTarget, hget]
  · rw [HealthcheckManager.ObserveSuccess, hwin]
  · rw [HealthcheckManager.ObserveFailure, hwin]

/-- Claim C10 witness: a manager with one target `primary` and the unknown
name `ghost`. -/
theorem c10_unknown_name_inconsistency_witness :
    HealthcheckManager.IsTargetHealthy
      ⟨[("primary", ⟨initialTaintState, true⟩)], [("primary", NewRollingWindow 3)]⟩
      "ghost" = false ∧
    (∀ now : Nat, HealthcheckManager.TaintTarget
      ⟨[("primary", ⟨initialTaintState, true⟩)], [("primary", NewRollingWindow 3)]⟩
      "ghost" now =
      ⟨[("primary", ⟨initialTaintState, true⟩)], [("primary", NewRollingWindow 3)]⟩) ∧
    HealthcheckManager.ObserveSuccess
      ⟨[("primary", ⟨initialTaintState, true⟩)], [("primary", NewRollingWindow 3)]⟩
      "ghost" = .error "unknown rolling window" ∧
    HealthcheckManager.ObserveFailure
      ⟨[("primary", ⟨initialTaintState, true⟩)], [("primary", NewRollingWindow 3)]⟩
      "ghost" = .error "unknown rolling window" :=
  c10_unknown_name_inconsistency
    ⟨[("primary", ⟨initialTaintState, true⟩)], [("primary", NewRollingWindow 3)]⟩
    "ghost" (by decide) (by decide)
